import Mathlib

/-!
Verification development for the maestro-keypress playback engine.

The definitions below are shallow embeddings of the Python sources under
`src/maestro/`: pure functions become Lean functions, stateful methods become
explicit state-passing functions on a `PlayerM` record, machine floats become
`ℚ`, Python `None`-returning lookups become `Option`, and raised exceptions
become `Except`/explicit error results.  Each definition's doc comment names
the source function it embeds.
-/

namespace Maestro

/-! ## Key maps: `keymap.py` (22-key full chromatic layout) -/

/-- `keymap.OCTAVE_HIGH` (C5-B5, MIDI 72-83): dict from note offset to key. -/
def OCTAVE_HIGH : ℕ → String
  | 0 => "q"
  | 1 => "2"
  | 2 => "w"
  | 3 => "3"
  | 4 => "e"
  | 5 => "r"
  | 6 => "5"
  | 7 => "t"
  | 8 => "6"
  | 9 => "y"
  | 10 => "7"
  | 11 => "u"
  | _ => ""

/-- `keymap.OCTAVE_MID` (C4-B4, MIDI 60-71). -/
def OCTAVE_MID : ℕ → String
  | 0 => "z"
  | 1 => "s"
  | 2 => "x"
  | 3 => "d"
  | 4 => "c"
  | 5 => "v"
  | 6 => "g"
  | 7 => "b"
  | 8 => "h"
  | 9 => "n"
  | 10 => "j"
  | 11 => "m"
  | _ => ""

/-- `keymap.OCTAVE_LOW` (C3-B3, MIDI 48-59).  The D#3 key is the apostrophe
character, written with an escape. -/
def OCTAVE_LOW : ℕ → String
  | 0 => "l"
  | 1 => "."
  | 2 => ";"
  | 3 => "\x27"
  | 4 => "/"
  | 5 => "o"
  | 6 => "0"
  | 7 => "p"
  | 8 => "-"
  | 9 => "["
  | 10 => "="
  | 11 => "]"
  | _ => ""

/-- The loop `while midi_note < 36: midi_note += 12` in `keymap.midi_note_to_key`. -/
def liftAbove36 (n : ℕ) : ℕ :=
  if n < 36 then liftAbove36 (n + 12) else n
termination_by 36 - n
decreasing_by omega

/-- The loop `while midi_note > 84: midi_note -= 12` in `keymap.midi_note_to_key`. -/
def dropBelow84 (n : ℕ) : ℕ :=
  if 84 < n then dropBelow84 (n - 12) else n
termination_by n
decreasing_by omega

/-- `keymap.midi_note_to_key` exactly as written in `src/maestro/keymap.py`:
it takes a single argument (no `transpose` parameter), unconditionally
transposes the pitch into 36..84, and always returns a key string. -/
def midi_note_to_key (midi_note : ℕ) : String :=
  let n := dropBelow84 (liftAbove36 midi_note)
  if n = 36 then ","
  else if n = 84 then "i"
  else
    let note_in_octave := n % 12
    if 72 ≤ n then OCTAVE_HIGH note_in_octave
    else if 60 ≤ n then OCTAVE_MID note_in_octave
    else OCTAVE_LOW note_in_octave

/-! ## Key maps: `keymap_15_double.py` (15-key double-row diatonic layout) -/

/-- `keymap_15_double.SHARP_OFFSETS` membership test (the offsets 1,3,6,8,10). -/
def isSharpOffset (o : ℕ) : Bool :=
  o = 1 ∨ o = 3 ∨ o = 6 ∨ o = 8 ∨ o = 10

/-- `keymap_15_double.SHARP_TO_NATURAL` (identical table in `keymap_15_triple.py`). -/
def SHARP_TO_NATURAL : ℕ → ℕ
  | 1 => 0
  | 3 => 2
  | 6 => 5
  | 8 => 7
  | 10 => 9
  | o => o

/-- `keymap_15_double.ROW_HIGH` (naturals only). -/
def ROW_HIGH : ℕ → String
  | 0 => "q"
  | 2 => "w"
  | 4 => "e"
  | 5 => "r"
  | 7 => "t"
  | 9 => "y"
  | 11 => "u"
  | _ => ""

/-- `keymap_15_double.ROW_MID` (naturals only). -/
def ROW_MID : ℕ → String
  | 0 => "a"
  | 2 => "s"
  | 4 => "d"
  | 5 => "f"
  | 7 => "g"
  | 9 => "h"
  | 11 => "j"
  | _ => ""

/-- The transpose loops of `keymap_15_double.midi_note_to_key_15_double`
(`while midi_note < 60: += 12` then `while midi_note > 84: -= 12`). -/
def intoRange60 (n : ℕ) : ℕ :=
  if n < 60 then intoRange60 (n + 12) else n
termination_by 60 - n
decreasing_by omega

/-- Second transpose loop shared by both 15-key layouts. -/
def downTo84 (n : ℕ) : ℕ :=
  if 84 < n then downTo84 (n - 12) else n
termination_by n
decreasing_by omega

/-- Body of `keymap_15_double.midi_note_to_key_15_double` after its range
check and transpose loops (extended-high check, sharp handling, row lookup). -/
def key15DoubleBody (midi_note : ℕ) (sharp_handling : String) : Option String :=
  if midi_note = 84 then some "i"
  else
    let note_in_octave := midi_note % 12
    if isSharpOffset note_in_octave then
      if sharp_handling = "snap" then
        let snapped := SHARP_TO_NATURAL note_in_octave
        if 72 ≤ midi_note then some (ROW_HIGH snapped) else some (ROW_MID snapped)
      else none
    else
      if 72 ≤ midi_note then some (ROW_HIGH note_in_octave)
      else some (ROW_MID note_in_octave)

/-- `keymap_15_double.midi_note_to_key_15_double`. -/
def midi_note_to_key_15_double (midi_note : ℕ) (transpose : Bool)
    (sharp_handling : String) : Option String :=
  if midi_note < 60 ∨ 84 < midi_note then
    if ¬transpose then none
    else key15DoubleBody (downTo84 (intoRange60 midi_note)) sharp_handling
  else key15DoubleBody midi_note sharp_handling

/-! ## Key maps: `keymap_15_triple.py` (15-key triple-row diatonic layout) -/

/-- `keymap_15_triple.NOTE_MAP` (a Python dict accessed with `.get`, hence `Option`). -/
def NOTE_MAP : ℕ → Option String
  | 60 => some "y"
  | 62 => some "u"
  | 64 => some "i"
  | 65 => some "o"
  | 67 => some "p"
  | 69 => some "h"
  | 71 => some "j"
  | 72 => some "k"
  | 74 => some "l"
  | 76 => some ";"
  | 77 => some "n"
  | 79 => some "m"
  | 81 => some ","
  | 83 => some "."
  | 84 => some "/"
  | _ => none

/-- Body of `keymap_15_triple.midi_note_to_key_15_triple` after its range
check and transpose loops (sharp handling, then `NOTE_MAP.get`). -/
def key15TripleBody (midi_note : ℕ) (sharp_handling : String) : Option String :=
  let note_in_octave := midi_note % 12
  if isSharpOffset note_in_octave then
    if sharp_handling = "skip" then none
    else if sharp_handling = "snap" then
      NOTE_MAP (midi_note - note_in_octave + SHARP_TO_NATURAL note_in_octave)
    else NOTE_MAP midi_note
  else NOTE_MAP midi_note

/-- `keymap_15_triple.midi_note_to_key_15_triple`. -/
def midi_note_to_key_15_triple (midi_note : ℕ) (transpose : Bool)
    (sharp_handling : String) : Option String :=
  if midi_note < 60 ∨ 84 < midi_note then
    if ¬transpose then none
    else key15TripleBody (downTo84 (intoRange60 midi_note)) sharp_handling
  else key15TripleBody midi_note sharp_handling

/-! ## A stable sort

Python's `sorted`/`list.sort` is a stable sort by a key function.  We model it
by a stable insertion sort: elements are inserted left to right, and an
inserted element passes every element that is `le` it, so equal-key elements
keep their original relative order — extensionally the behavior of any stable
sort, hence of Python's. -/

/-- Insert `x` after every element `y` of an already-sorted list with
`le y x = true` (stable position: after equals). -/
def insAfter (le : α → α → Bool) (x : α) : List α → List α
  | [] => [x]
  | y :: ys => if le y x then y :: insAfter le x ys else x :: y :: ys

/-- Stable sort modelling Python `sorted(l, key=...)` where `le` is the
(total, transitive) boolean comparison induced by the key. -/
def pySort (le : α → α → Bool) (l : List α) : List α :=
  l.foldl (fun acc x => insAfter le x acc) []

/-! ## MIDI parser: `parser.py` -/

/-- `parser.Note`: a note event with timing (seconds become `ℚ`). -/
structure Note where
  midi_note : ℕ
  time : ℚ
  duration : ℚ
deriving DecidableEq, Repr

/-- The payload of one message of the merged track stream, as far as
`parser.parse_midi` inspects it (`msg.type`, `msg.tempo`, `msg.note`,
`msg.velocity`); every other message type is `other`. -/
inductive MsgKind where
  | setTempo (tempo : ℕ)
  | noteOn (note : ℕ) (velocity : ℕ)
  | noteOff (note : ℕ)
  | other
deriving DecidableEq, Repr

/-- One MIDI message: its delta time in ticks (`msg.time`) plus its kind. -/
structure Msg where
  delta : ℕ
  kind : MsgKind
deriving DecidableEq, Repr

/-- `mido.tick2second(tick, ticks_per_beat, tempo) = tick * tempo / (ticks_per_beat * 1e6)`. -/
def tick2second (tick ticks_per_beat tempo : ℕ) : ℚ :=
  (tick * tempo : ℚ) / ((ticks_per_beat : ℚ) * 1000000)

/-- The loop state of `parser.parse_midi`: `current_time`, `current_tempo`,
the `active_notes` dict (note → (start_time, index)), and the `notes` list. -/
structure ParseState where
  time : ℚ
  tempo : ℕ
  active : ℕ → Option (ℚ × ℕ)
  notes : List Note

/-- Initial loop state of `parser.parse_midi`
(`current_time = 0.0`, `current_tempo = 500000`, empty dict, empty list). -/
def parseInit : ParseState :=
  { time := 0, tempo := 500000, active := fun _ => none, notes := [] }

/-- Placeholder `Note` standing for Python's (never-failing) `notes[idx]`
indexing; it is only consulted when `idx` is in bounds. -/
def dfltNote : Note := ⟨0, 0, 0⟩

/-- The note-end branch of `parser.parse_midi` (`note_off`, or `note_on` with
velocity 0): pop the dict entry and rewrite `notes[idx]` with
`duration = current_time - start_time`. -/
def processOff (s : ParseState) (t : ℚ) (note : ℕ) : ParseState :=
  match s.active note with
  | none => { s with time := t }
  | some (start_time, idx) =>
      { time := t
        tempo := s.tempo
        active := fun k => if k = note then none else s.active k
        notes := s.notes.set idx
          { (s.notes.getD idx dfltNote) with duration := t - start_time } }

/-- One iteration of the message loop of `parser.parse_midi`: first advance
`current_time` by the delta converted with the tempo in force, then act on the
message. -/
def processMsg (ticks_per_beat : ℕ) (s : ParseState) (m : Msg) : ParseState :=
  let t := s.time + tick2second m.delta ticks_per_beat s.tempo
  match m.kind with
  | .setTempo v => { s with time := t, tempo := v }
  | .noteOn note velocity =>
      if 0 < velocity then
        { time := t
          tempo := s.tempo
          active := fun k => if k = note then some (t, s.notes.length) else s.active k
          notes := s.notes ++ [⟨note, t, 0⟩] }
      else processOff s t note
  | .noteOff note => processOff s t note
  | .other => { s with time := t }

/-- The whole message loop of `parser.parse_midi` over the merged stream. -/
def processMsgs (ticks_per_beat : ℕ) (msgs : List Msg) : ParseState :=
  msgs.foldl (processMsg ticks_per_beat) parseInit

/-- The comparison used by `sorted(notes, key=lambda n: n.time)`. -/
def noteTimeLe (a b : Note) : Bool :=
  decide (a.time ≤ b.time)

/-- `mido`'s `_to_abstime`: tag each message of one track with its absolute
tick time (running sum of deltas). -/
def toAbstime (now : ℕ) : List Msg → List (ℕ × Msg)
  | [] => []
  | m :: ms => (now + m.delta, m) :: toAbstime (now + m.delta) ms

/-- `mido`'s `_to_reltime`: convert absolute-tick-tagged messages back to
delta times. -/
def toReltime (prev : ℕ) : List (ℕ × Msg) → List Msg
  | [] => []
  | (t, m) :: rest => { m with delta := t - prev } :: toReltime t rest

/-- `mido.merge_tracks`: tag every track with absolute times, concatenate,
stable-sort by absolute time, and convert back to deltas.  (mido additionally
rewrites `end_of_track` meta messages, folding their deltas into the following
message; in this model those messages are `MsgKind.other`, which the parser
loop only uses for its delta, so the timing of every modelled message is
unchanged.) -/
def mergeTracks (tracks : List (List Msg)) : List Msg :=
  toReltime 0 (pySort (fun a b => decide (a.1 ≤ b.1)) (tracks.flatMap (toAbstime 0)))

/-- `parser.MAX_MIDI_SIZE = 10 * 1024 * 1024`. -/
def MAX_MIDI_SIZE : ℕ := 10 * 1024 * 1024

/-- A MIDI container as `mido.MidiFile` presents it to this program:
`ticks_per_beat` and the (unmerged) tracks. -/
structure MidiFileModel where
  ticks_per_beat : ℕ
  tracks : List (List Msg)
deriving DecidableEq, Repr

/-- What `parser.parse_midi` can observe about a path on disk:
whether `Path.exists()` holds, `stat().st_size`, and the result of
`mido.MidiFile(path)` (`.error e` when the container is malformed and mido
raises with message `e`). -/
structure MidiSource where
  path : String
  present : Bool
  size : ℕ
  content : Except String MidiFileModel

/-- The Python exception classes raised by `parser.py`. -/
inductive ExcClass where
  | fileNotFoundError
  | valueError
deriving DecidableEq, Repr

/-- A raised Python exception: its class and its message. -/
structure PyError where
  cls : ExcClass
  msg : String
deriving DecidableEq, Repr

/-- Stand-in for the interpolated size text of the oversize message
(`f"{file_size / (1024 * 1024):.1f} MB (max 10 MB)"`); the claims depend only
on the fixed message prefix, which is kept verbatim. -/
def sizeText (size : ℕ) : String :=
  toString size

/-- The pure part of `parser.parse_midi`: run the message loop over the merged
tracks and return the notes sorted by start time. -/
def parse_midi_notes (mid : MidiFileModel) : List Note :=
  pySort noteTimeLe (processMsgs mid.ticks_per_beat (mergeTracks mid.tracks)).notes

/-- `parser.parse_midi` including its failure behavior: missing file,
oversize file, malformed container, in that order. -/
def parse_midi (src : MidiSource) : Except PyError (List Note) :=
  if src.present = false then
    .error ⟨.fileNotFoundError, "MIDI file not found: " ++ src.path⟩
  else if MAX_MIDI_SIZE < src.size then
    .error ⟨.valueError, "MIDI file too large: " ++ sizeText src.size⟩
  else
    match src.content with
    | .error e => .error ⟨.valueError, "Invalid MIDI file: " ++ e⟩
    | .ok mid => .ok (parse_midi_notes mid)

/-- `parser.get_tempo`: scan tracks in order, message by message, and return
the first `set_tempo` value; default 500000. -/
def get_tempo_track : List Msg → Option ℕ
  | [] => none
  | m :: ms =>
      match m.kind with
      | .setTempo v => some v
      | _ => get_tempo_track ms

/-- `parser.get_tempo` over all tracks. -/
def get_tempo : List (List Msg) → ℕ
  | [] => 500000
  | t :: ts =>
      match get_tempo_track t with
      | some v => v
      | none => get_tempo ts

/-- `mido.tempo2bpm(tempo) = 60 * 1e6 / tempo`. -/
def tempo2bpm (tempo : ℕ) : ℚ :=
  60000000 / (tempo : ℚ)

/-- Python's built-in `round`: round half to even. -/
def pyRound (q : ℚ) : ℤ :=
  let f := ⌊q⌋
  let r := q - f
  if r < 1 / 2 then f
  else if 1 / 2 < r then f + 1
  else if f % 2 = 0 then f else f + 1

/-- The dict returned by `parser.get_midi_info`. -/
structure MidiInfo where
  duration : ℚ
  bpm : ℤ
  note_count : ℕ
deriving DecidableEq, Repr

/-- `parser.get_midi_info`: parse the notes, derive bpm from `get_tempo`
(falling back to 120 when re-reading the file or the conversion fails — in
this model only `tempo2bpm`'s division by a zero tempo can fail), and derive
the duration from the last note. -/
def get_midi_info (src : MidiSource) : Except PyError MidiInfo :=
  match parse_midi src with
  | .error e => .error e
  | .ok notes =>
      let bpm : ℤ :=
        match src.content with
        | .error _ => 120
        | .ok mid =>
            let t := get_tempo mid.tracks
            if t = 0 then 120 else pyRound (tempo2bpm t)
      let duration : ℚ :=
        match notes.getLast? with
        | none => 0
        | some last_note => last_note.time + last_note.duration
      .ok ⟨duration, bpm, notes.length⟩

/-- Written from the spec's words for comparison with the code (§4.1: "bpm:
tempo at position 0"): the tempo in effect at song position 0 of the merged
stream, i.e. the last `set_tempo` occurring before any time has elapsed
(all deltas so far 0), default 500000. -/
def spec_tempo_at_zero (cur : ℕ) : List Msg → ℕ
  | [] => cur
  | m :: ms =>
      if m.delta = 0 then
        match m.kind with
        | .setTempo v => spec_tempo_at_zero v ms
        | _ => spec_tempo_at_zero cur ms
      else cur

/-! ## Playback engine: `player.py` -/

/-- Modelled from the spec: `GameProfile` (§3) — the repository file
`maestro/game_mode.py` defining the `GameMode` enum is not under `src/`;
its two member names are fixed by their uses in `player.py`
(`GameMode.HEARTOPIA`, `GameMode.WHERE_WINDS_MEET`). -/
inductive GameMode where
  | HEARTOPIA
  | WHERE_WINDS_MEET
deriving DecidableEq, Repr

/-- Python's `Enum.name` for `GameMode` members. -/
def GameMode.pyName : GameMode → String
  | .HEARTOPIA => "HEARTOPIA"
  | .WHERE_WINDS_MEET => "WHERE_WINDS_MEET"

/-- `key_layout.KeyLayout`. -/
inductive KeyLayout where
  | KEYS_22
  | KEYS_15_DOUBLE
  | KEYS_15_TRIPLE
  | DRUMS
  | XYLOPHONE
deriving DecidableEq, Repr

/-- Python's `Enum.name` for `KeyLayout` members. -/
def KeyLayout.pyName : KeyLayout → String
  | .KEYS_22 => "KEYS_22"
  | .KEYS_15_DOUBLE => "KEYS_15_DOUBLE"
  | .KEYS_15_TRIPLE => "KEYS_15_TRIPLE"
  | .DRUMS => "DRUMS"
  | .XYLOPHONE => "XYLOPHONE"

/-- `player.PlaybackState`. -/
inductive PlaybackState where
  | STOPPED
  | PLAYING
deriving DecidableEq, Repr

/-- A held key: `(key, modifier)` where the only modifier the program ever
uses is shift, modelled as `Option Unit`. -/
abbrev HeldKey := String × Option Unit

/-- `player.KeyEvent` (the `action` field is the Python string `"down"`/`"up"`). -/
structure KeyEvent where
  time : ℚ
  action : String
  key : String
  modifier : Option Unit
deriving DecidableEq, Repr

/-- The state of a `player.Player` instance (every field `__init__` assigns,
except the pynput controller, the logger and the thread handle, which carry no
modelled state; `_stop_event` is the `threading.Event` flag). -/
structure PlayerM where
  state : PlaybackState
  current_song : Option String
  notes : List Note
  stop_event : Bool
  note_index : ℕ
  start_time : ℚ
  game_mode : GameMode
  last_key : String
  speed : ℚ
  last_error : String
  transpose : Bool
  key_layout : KeyLayout
  sharp_handling : String
  held_keys : List HeldKey
  events : List KeyEvent
  cached_events : Option (List KeyEvent)
  cached_cache_key : Option String

/-- The field values `Player.__init__` assigns. -/
def playerDefault : PlayerM :=
  { state := .STOPPED
    current_song := none
    notes := []
    stop_event := false
    note_index := 0
    start_time := 0
    game_mode := .HEARTOPIA
    last_key := ""
    speed := 1
    last_error := ""
    transpose := false
    key_layout := .KEYS_22
    sharp_handling := "skip"
    held_keys := []
    events := []
    cached_events := none
    cached_cache_key := none }

/-- `Player._release_all_keys`: attempt to release every currently held key
(each release wrapped in `try/except: pass`, so failures change nothing),
then clear the set.  Returns the new state together with the list of keys
whose release was attempted. -/
def release_all_keys (p : PlayerM) : PlayerM × List HeldKey :=
  ({ p with held_keys := [] }, p.held_keys)

/-- `Player.__init__` registers `self._release_all_keys` with `atexit`; the
constructor is modelled as the initial state plus the list of registered
process-exit hooks. -/
def player_new : PlayerM × List (PlayerM → PlayerM × List HeldKey) :=
  (playerDefault, [release_all_keys])

/-- `Player.stop`: set the stop event, release every held key, go to
`STOPPED`, reset position state and the events list.  (The final
`thread.join(timeout=1.0)` synchronizes threads and touches no modelled
state.) -/
def stop (p : PlayerM) : PlayerM :=
  let p1 := { p with stop_event := true }
  let p2 := (release_all_keys p1).1
  { p2 with state := .STOPPED, note_index := 0, start_time := 0, events := [] }

/-- `Player._invalidate_cache`. -/
def invalidate_cache (p : PlayerM) : PlayerM :=
  { p with cached_events := none, cached_cache_key := none }

/-- Python `str(bool)`. -/
def pyStr (b : Bool) : String :=
  if b then "True" else "False"

/-- `Player._get_cache_key`:
`f"{song_path}|{mode.name}|{layout.name}|{transpose}|{sharp_handling}"`. -/
def get_cache_key (p : PlayerM) : String :=
  (match p.current_song with | some s => s | none => "none")
    ++ "|" ++ p.game_mode.pyName
    ++ "|" ++ p.key_layout.pyName
    ++ "|" ++ pyStr p.transpose
    ++ "|" ++ p.sharp_handling

/-- `Player.load`: invalidate the cache when the path differs from the loaded
song, then run the parser; on failure the exception propagates (second
component) and the already-performed invalidation persists; on success the
notes, song identity and note index are replaced. -/
def load (p : PlayerM) (src : MidiSource) : PlayerM × Option PyError :=
  let p1 := if p.current_song ≠ some src.path then invalidate_cache p else p
  match parse_midi src with
  | .error e => (p1, some e)
  | .ok new_notes =>
      ({ p1 with notes := new_notes, current_song := some src.path, note_index := 0 }, none)

/-- The `transpose` property setter of `Player`. -/
def set_transpose (p : PlayerM) (v : Bool) : PlayerM :=
  let p1 := if p.transpose ≠ v then invalidate_cache p else p
  { p1 with transpose := v }

/-- The `key_layout` property setter of `Player`. -/
def set_key_layout (p : PlayerM) (v : KeyLayout) : PlayerM :=
  let p1 := if p.key_layout ≠ v then invalidate_cache p else p
  { p1 with key_layout := v }

/-- The `sharp_handling` property setter of `Player` (ignores values other
than `"skip"`/`"snap"`). -/
def set_sharp_handling (p : PlayerM) (v : String) : PlayerM :=
  if v = "skip" ∨ v = "snap" then
    let p1 := if p.sharp_handling ≠ v then invalidate_cache p else p
    { p1 with sharp_handling := v }
  else p

/-- The `game_mode` property setter of `Player` (does not touch the cache). -/
def set_game_mode (p : PlayerM) (v : GameMode) : PlayerM :=
  { p with game_mode := v }

/-- The `speed` property setter of `Player`: clamp to [0.25, 1.5]. -/
def set_speed (p : PlayerM) (v : ℚ) : PlayerM :=
  { p with speed := max (1 / 4) (min (3 / 2) v) }

/-- The signature of `Player._resolve_key` as a function of the instance
fields it reads (`_game_mode`, `_key_layout`, `_transpose`,
`_sharp_handling`) and the MIDI note.  The scheduler claims are quantified
over an arbitrary resolver of this shape; the concrete dispatch is in
`player.py` lines 236-266 (its `KEYS_22` arm calls
`keymap.midi_note_to_key(midi_note, transpose=...)`, a call the function's
actual signature rejects — see the keymap section). -/
abbrev Resolver := GameMode → KeyLayout → Bool → String → ℕ → Option HeldKey

/-- The per-note body of the build loop in `Player._build_events`: the two
appends guarded by `self._resolve_key(note.midi_note)`. -/
def events_of_note (resolve : ℕ → Option HeldKey) (n : Note) : List KeyEvent :=
  match resolve n.midi_note with
  | none => []
  | some (key, modifier) =>
      [⟨n.time, "down", key, modifier⟩, ⟨n.time + n.duration, "up", key, modifier⟩]

/-- The sort key of `Player._build_events`:
`lambda e: (e.time, 0 if e.action == "up" else 1)`. -/
def event_ord (e : KeyEvent) : ℕ :=
  if e.action = "up" then 0 else 1

/-- Lexicographic boolean comparison on that sort key. -/
def event_le (a b : KeyEvent) : Bool :=
  decide (a.time < b.time ∨ (a.time = b.time ∧ event_ord a ≤ event_ord b))

/-- The cacheless part of `Player._build_events`: build a down and an up
event per resolvable note, then stable-sort by `(time, up-before-down)`. -/
def build_events_raw (resolve : ℕ → Option HeldKey) (notes : List Note) : List KeyEvent :=
  pySort event_le (notes.flatMap (events_of_note resolve))

/-- `Player._build_events` with its cache check (line 280: reuse iff
`_cached_events is not None and _cached_cache_key == current_cache_key`),
parameterized by the resolver. -/
def build_events (rk : Resolver) (p : PlayerM) : List KeyEvent × PlayerM :=
  let current_cache_key := get_cache_key p
  match p.cached_events with
  | some evs =>
      if p.cached_cache_key = some current_cache_key then (evs, p)
      else
        let evs := build_events_raw
          (rk p.game_mode p.key_layout p.transpose p.sharp_handling) p.notes
        (evs, { p with cached_events := some evs, cached_cache_key := some current_cache_key })
  | none =>
      let evs := build_events_raw
        (rk p.game_mode p.key_layout p.transpose p.sharp_handling) p.notes
      (evs, { p with cached_events := some evs, cached_cache_key := some current_cache_key })

/-- The branch condition of `Player._build_events` line 280: the next build
will reuse the cached list. -/
def uses_cache (p : PlayerM) : Prop :=
  p.cached_events.isSome = true ∧ p.cached_cache_key = some (get_cache_key p)

instance (p : PlayerM) : Decidable (uses_cache p) := by
  unfold uses_cache
  infer_instance

/-- `Player._key_down`: no-op when already held; otherwise update `_last_key`
for visual feedback, then attempt the press.  `press_result` models the
outcome of the underlying input-simulation call (`none` = success, `some e` =
the call raised with text `e`, which the `except` block logs and records). -/
def key_down (press_result : Option String) (p : PlayerM) (key : String)
    (modifier : Option Unit) : PlayerM :=
  let key_id : HeldKey := (key, modifier)
  if key_id ∈ p.held_keys then p
  else
    let p1 := { p with last_key :=
      if modifier.isSome then "Shift+" ++ key.toUpper else key.toUpper }
    match press_result with
    | none => { p1 with held_keys := key_id :: p1.held_keys }
    | some e => { p1 with last_error := "Key simulation failed: " ++ e }

/-! ## Auxiliary predicates and concrete inputs used by the theorems -/

/-- Loop invariant of the message loop of `parser.parse_midi`: note start
times are non-decreasing and never ahead of the clock, durations are
non-negative, and every open note started no later than the clock. -/
def ParseInv (s : ParseState) : Prop :=
  (s.notes.map Note.time).Pairwise (· ≤ ·)
  ∧ (∀ q ∈ s.notes.map Note.time, q ≤ s.time)
  ∧ (∀ nt ∈ s.notes, 0 ≤ nt.duration)
  ∧ (∀ k st idx, s.active k = some (st, idx) → st ≤ s.time)

/-- A single-track MIDI container: one note at tick 0, released at tick 480,
at the default tempo and 480 ticks per beat (so the note lasts 0.5 s). -/
def midSingle : MidiFileModel :=
  ⟨480, [[⟨0, .noteOn 60 64⟩, ⟨480, .noteOff 60⟩]]⟩

/-- A single-track MIDI container whose only `set_tempo` (250000 µs/beat =
240 BPM) occurs at tick 480, after the first note-on: at position 0 the
default tempo 500000 (120 BPM) is in force. -/
def midLateTempo : MidiFileModel :=
  ⟨480, [[⟨480, .noteOn 60 64⟩, ⟨0, .setTempo 250000⟩, ⟨480, .noteOff 60⟩]]⟩

/-- A well-formed on-disk source holding `midLateTempo`. -/
def srcLateTempo : MidiSource :=
  ⟨"late_tempo.mid", true, 1000, .ok midLateTempo⟩

/-- A well-formed on-disk source holding `midSingle`. -/
def srcSingle : MidiSource :=
  ⟨"song.mid", true, 1000, .ok midSingle⟩

/-- A source whose path does not exist. -/
def srcMissing : MidiSource :=
  ⟨"missing.mid", false, 0, .error "unreadable"⟩

/-- A source over the 10 MB limit. -/
def srcOversize : MidiSource :=
  ⟨"big.mid", true, 10 * 1024 * 1024 + 1, .ok midSingle⟩

/-- An existing, small source that is not a well-formed MIDI container. -/
def srcMalformed : MidiSource :=
  ⟨"bad.mid", true, 4, .error "MThd not found. Probably not a MIDI file"⟩

/-- A resolver that maps every pitch to no key (used to instantiate the
cache theorems at concrete inputs). -/
def rkNone : Resolver := fun _ _ _ _ _ => none

/-- A resolver mapping pitch 60 to the unmodified key `"z"` (the 22-key
table's middle C), everything else to no key. -/
def rkMiddleC : ℕ → Option HeldKey := fun n => if n = 60 then some ("z", none) else none

/-! ## Lemmas about the stable sort -/

theorem insAfter_perm (le : α → α → Bool) (x : α) (l : List α) :
    (insAfter le x l).Perm (x :: l) := by
  induction l with
  | nil => simp [insAfter]
  | cons y ys ih =>
      simp only [insAfter]
      split
      · exact (ih.cons y).trans (List.Perm.swap x y ys)
      · exact List.Perm.refl _

theorem pySort_foldl_perm (le : α → α → Bool) :
    ∀ (l acc : List α), (l.foldl (fun a x => insAfter le x a) acc).Perm (acc ++ l)
  | [], acc => by simp
  | x :: xs, acc => by
      simp only [List.foldl_cons]
      refine (pySort_foldl_perm le xs (insAfter le x acc)).trans ?_
      refine (((insAfter_perm le x acc).append_right xs).trans ?_)
      exact List.perm_middle.symm

theorem pySort_perm (le : α → α → Bool) (l : List α) : (pySort le l).Perm l := by
  simpa using pySort_foldl_perm le l []

theorem mem_insAfter (le : α → α → Bool) (x : α) (l : List α) (z : α) :
    z ∈ insAfter le x l ↔ z = x ∨ z ∈ l := by
  rw [(insAfter_perm le x l).mem_iff, List.mem_cons]

theorem insAfter_pairwise {le : α → α → Bool}
    (htrans : ∀ a b c, le a b = true → le b c = true → le a c = true)
    (htot : ∀ a b, le a b = true ∨ le b a = true)
    (x : α) (l : List α) (h : l.Pairwise (le · · = true)) :
    (insAfter le x l).Pairwise (le · · = true) := by
  induction l with
  | nil => simp [insAfter]
  | cons y ys ih =>
      rcases List.pairwise_cons.mp h with ⟨hy, hys⟩
      simp only [insAfter]
      split
      · refine List.pairwise_cons.mpr ⟨?_, ih hys⟩
        intro z hz
        rcases (mem_insAfter le x ys z).mp hz with rfl | hz
        · assumption
        · exact hy z hz
      · rename_i hxy
        have hx : le x y = true := by
          rcases htot x y with h1 | h1
          · exact h1
          · exact absurd h1 hxy
        refine List.pairwise_cons.mpr ⟨?_, h⟩
        intro z hz
        rcases List.mem_cons.mp hz with rfl | hz
        · exact hx
        · exact htrans x y z hx (hy z hz)

theorem pySort_foldl_pairwise {le : α → α → Bool}
    (htrans : ∀ a b c, le a b = true → le b c = true → le a c = true)
    (htot : ∀ a b, le a b = true ∨ le b a = true) :
    ∀ (l acc : List α), acc.Pairwise (le · · = true) →
      (l.foldl (fun a x => insAfter le x a) acc).Pairwise (le · · = true)
  | [], _, h => h
  | x :: xs, acc, h => by
      simp only [List.foldl_cons]
      exact pySort_foldl_pairwise htrans htot xs _ (insAfter_pairwise htrans htot x acc h)

theorem pySort_pairwise {le : α → α → Bool}
    (htrans : ∀ a b c, le a b = true → le b c = true → le a c = true)
    (htot : ∀ a b, le a b = true ∨ le b a = true) (l : List α) :
    (pySort le l).Pairwise (le · · = true) :=
  pySort_foldl_pairwise htrans htot l [] (List.Pairwise.nil)

theorem insAfter_of_all {le : α → α → Bool} {x : α} {l : List α}
    (h : ∀ y ∈ l, le y x = true) : insAfter le x l = l ++ [x] := by
  induction l with
  | nil => rfl
  | cons y ys ih =>
      simp only [insAfter, if_pos (h y (List.mem_cons_self y ys))]
      rw [ih fun z hz => h z (List.mem_cons_of_mem y hz)]
      rfl

theorem pySort_foldl_of_pairwise {le : α → α → Bool} :
    ∀ (l acc : List α), (acc ++ l).Pairwise (le · · = true) →
      l.foldl (fun a x => insAfter le x a) acc = acc ++ l
  | [], acc, _ => by simp
  | x :: xs, acc, h => by
      rcases List.pairwise_append.mp h with ⟨hacc, hxxs, hcross⟩
      have hins : insAfter le x acc = acc ++ [x] :=
        insAfter_of_all fun y hy => hcross y hy x (List.mem_cons_self x xs)
      have hre : (acc ++ [x]) ++ xs = acc ++ x :: xs := by simp
      simp only [List.foldl_cons, hins]
      rw [pySort_foldl_of_pairwise xs (acc ++ [x]) (by rwa [hre]), hre]

theorem pySort_of_pairwise {le : α → α → Bool} {l : List α}
    (h : l.Pairwise (le · · = true)) : pySort le l = l := by
  simpa [pySort] using pySort_foldl_of_pairwise l [] (by simpa using h)

/-! ## Lemmas about the parser loop -/

theorem tick2second_nonneg (tick tpb tempo : ℕ) : 0 ≤ tick2second tick tpb tempo := by
  unfold tick2second
  positivity

theorem processOff_time (s : ParseState) (t : ℚ) (note : ℕ) :
    (processOff s t note).time = t := by
  unfold processOff
  split <;> rfl

theorem processMsg_time (tpb : ℕ) (s : ParseState) (m : Msg) :
    (processMsg tpb s m).time = s.time + tick2second m.delta tpb s.tempo := by
  unfold processMsg
  cases m.kind with
  | setTempo v => rfl
  | noteOn note velocity =>
      dsimp only
      split
      · rfl
      · exact processOff_time ..
  | noteOff note => exact processOff_time ..
  | other => rfl

theorem time_le_processMsg (tpb : ℕ) (s : ParseState) (m : Msg) :
    s.time ≤ (processMsg tpb s m).time := by
  rw [processMsg_time]
  have := tick2second_nonneg m.delta tpb s.tempo
  linarith

theorem map_set_getD (f : α → β) (d : α) :
    ∀ (l : List α) (i : ℕ), (l.map f).set i (f (l.getD i d)) = l.map f
  | [], _ => rfl
  | a :: as, 0 => rfl
  | a :: as, i + 1 => by
      simp only [List.map_cons, List.set_cons_succ, List.getD_cons_succ]
      rw [map_set_getD f d as i]

theorem processOff_notes_map_time (s : ParseState) (t : ℚ) (note : ℕ) :
    (processOff s t note).notes.map Note.time = s.notes.map Note.time := by
  unfold processOff
  split
  · rfl
  · dsimp only
    rw [List.map_set]
    exact map_set_getD Note.time dfltNote s.notes _

theorem processMsg_notes_map_time (tpb : ℕ) (s : ParseState) (m : Msg) :
    ∃ r, (processMsg tpb s m).notes.map Note.time = s.notes.map Note.time ++ r := by
  unfold processMsg
  cases m.kind with
  | setTempo v => exact ⟨[], by simp⟩
  | noteOn note velocity =>
      dsimp only
      split
      · exact ⟨[s.time + tick2second m.delta tpb s.tempo], by simp⟩
      · exact ⟨[], by rw [processOff_notes_map_time]; simp⟩
  | noteOff note => exact ⟨[], by rw [processOff_notes_map_time]; simp⟩
  | other => exact ⟨[], by simp⟩

theorem foldl_notes_map_time (tpb : ℕ) :
    ∀ (msgs : List Msg) (s : ParseState),
      ∃ r, (msgs.foldl (processMsg tpb) s).notes.map Note.time
            = s.notes.map Note.time ++ r
  | [], s => ⟨[], by simp⟩
  | m :: ms, s => by
      simp only [List.foldl_cons]
      obtain ⟨r₁, h₁⟩ := processMsg_notes_map_time tpb s m
      obtain ⟨r₂, h₂⟩ := foldl_notes_map_time tpb ms (processMsg tpb s m)
      exact ⟨r₁ ++ r₂, by rw [h₂, h₁, List.append_assoc]⟩

theorem parseInv_init : ParseInv parseInit := by
  simp [ParseInv, parseInit]

theorem parseInv_processOff {s : ParseState} {t : ℚ} (note : ℕ)
    (h : ParseInv s) (hts : s.time ≤ t) : ParseInv (processOff s t note) := by
  obtain ⟨h1, h2, h3, h4⟩ := h
  unfold processOff
  split
  · exact ⟨h1, fun q hq => le_trans (h2 q hq) hts, h3, fun k st idx hk =>
      le_trans (h4 k st idx hk) hts⟩
  · rename_i start_time idx heq
    have hmap : ((s.notes.set idx
        { (s.notes.getD idx dfltNote) with duration := t - start_time }).map Note.time)
        = s.notes.map Note.time := by
      rw [List.map_set]
      exact map_set_getD Note.time dfltNote s.notes idx
    refine ⟨?_, ?_, ?_, ?_⟩
    · show ((s.notes.set idx _).map Note.time).Pairwise (· ≤ ·)
      rw [hmap]
      exact h1
    · intro q hq
      refine le_trans (h2 q ?_) hts
      rw [← hmap]
      exact hq
    · intro nt hnt
      rcases List.mem_or_eq_of_mem_set hnt with hmem | rfl
      · exact h3 nt hmem
      · have hst : start_time ≤ s.time := h4 note start_time idx heq
        show (0 : ℚ) ≤ t - start_time
        linarith
    · intro k st i hk
      simp only at hk
      split at hk
      · cases hk
      · exact le_trans (h4 k st i hk) hts

theorem parseInv_processMsg (tpb : ℕ) (s : ParseState) (m : Msg)
    (h : ParseInv s) : ParseInv (processMsg tpb s m) := by
  have hts : s.time ≤ s.time + tick2second m.delta tpb s.tempo := by
    have := tick2second_nonneg m.delta tpb s.tempo
    linarith
  obtain ⟨h1, h2, h3, h4⟩ := h
  unfold processMsg
  cases m.kind with
  | setTempo v =>
      exact ⟨h1, fun q hq => le_trans (h2 q hq) hts, h3, fun k st idx hk =>
        le_trans (h4 k st idx hk) hts⟩
  | noteOn note velocity =>
      dsimp only
      split
      · refine ⟨?_, ?_, ?_, ?_⟩
        · rw [List.map_append]
          refine List.pairwise_append.mpr ⟨h1, by simp, ?_⟩
          intro a ha b hb
          simp only [List.map_cons, List.map_nil, List.mem_singleton] at hb
          subst hb
          exact le_trans (h2 a ha) hts
        · intro q hq
          rw [List.map_append] at hq
          rcases List.mem_append.mp hq with hq | hq
          · exact le_trans (h2 q hq) hts
          · simp only [List.map_cons, List.map_nil, List.mem_singleton] at hq
            subst hq
            exact le_refl _
        · intro nt hnt
          rcases List.mem_append.mp hnt with hnt | hnt
          · exact h3 nt hnt
          · simp only [List.mem_singleton] at hnt
            subst hnt
            exact le_refl _
        · intro k st idx hk
          simp only at hk
          split at hk
          · cases hk
            exact le_refl _
          · exact le_trans (h4 k st idx hk) hts
      · exact parseInv_processOff note ⟨h1, h2, h3, h4⟩ hts
  | noteOff note => exact parseInv_processOff note ⟨h1, h2, h3, h4⟩ hts
  | other =>
      exact ⟨h1, fun q hq => le_trans (h2 q hq) hts, h3, fun k st idx hk =>
        le_trans (h4 k st idx hk) hts⟩

theorem parseInv_foldl (tpb : ℕ) :
    ∀ (msgs : List Msg) (s : ParseState), ParseInv s →
      ParseInv (msgs.foldl (processMsg tpb) s)
  | [], _, h => h
  | m :: ms, s, h => by
      simp only [List.foldl_cons]
      exact parseInv_foldl tpb ms _ (parseInv_processMsg tpb s m h)

theorem parseInv_processMsgs (tpb : ℕ) (msgs : List Msg) :
    ParseInv (processMsgs tpb msgs) :=
  parseInv_foldl tpb msgs parseInit parseInv_init

/-! ## Lemmas about the error messages and `get_tempo` -/

theorem size_msg_ne_invalid_msg (a b : String) :
    ("MIDI file too large: " ++ a) ≠ "Invalid MIDI file: " ++ b := by
  intro h
  have h2 := congrArg (fun s : String => s.data.head?) h
  simp only [String.data_append, List.head?_append] at h2
  rw [show ("MIDI file too large: ").data.head? = some 'M' from rfl,
      show ("Invalid MIDI file: ").data.head? = some 'I' from rfl] at h2
  rw [show ∀ x : Option Char, (some 'M').or x = some 'M' from fun _ => rfl,
      show ∀ x : Option Char, (some 'I').or x = some 'I' from fun _ => rfl] at h2
  exact absurd h2 (by decide)

/-- The per-track scan of `parser.get_tempo` finds the head of the track's
`set_tempo` values. -/
theorem get_tempo_track_eq (t : List Msg) :
    get_tempo_track t
      = (t.filterMap fun m =>
          match m.kind with | .setTempo v => some v | _ => none).head? := by
  induction t with
  | nil => rfl
  | cons m ms ih =>
      cases hk : m.kind <;>
        simp [get_tempo_track, List.filterMap_cons, hk, ih]

/-- `parser.get_tempo`'s nested loops find the first `set_tempo` value in
track-scan order (the flattened track list), defaulting to 500000. -/
theorem get_tempo_eq_flat (tracks : List (List Msg)) :
    get_tempo tracks
      = ((tracks.flatten.filterMap fun m =>
          match m.kind with | .setTempo v => some v | _ => none).headD 500000) := by
  induction tracks with
  | nil => rfl
  | cons t ts ih =>
      rw [show get_tempo (t :: ts)
          = (match get_tempo_track t with
             | some v => v
             | none => get_tempo ts) from rfl]
      rw [get_tempo_track_eq t]
      cases hh : (t.filterMap fun m =>
          match m.kind with | .setTempo v => some v | _ => none).head? with
      | some v =>
          obtain ⟨l', hl'⟩ := List.head?_eq_some_iff.mp hh
          simp [List.flatten_cons, List.filterMap_append, hl']
      | none =>
          have hnil : (t.filterMap fun m =>
              match m.kind with | .setTempo v => some v | _ => none) = [] :=
            List.head?_eq_none_iff.mp hh
          simp [List.flatten_cons, List.filterMap_append, hnil, ih]

/-! ## Claim theorems -/

/-- C2, code evaluated at the failing inputs: `keymap.midi_note_to_key` has
no `transpose` parameter and cannot return none — pitches outside the
declared 36..84 range (96 above, 24 below) are unconditionally octave-shifted
into range and resolved to keys, where the claim (and the repository's own
tests) require none under `transpose=false`. -/
theorem keymap22_resolves_out_of_range :
    midi_note_to_key 96 = "i" ∧ midi_note_to_key 24 = "," := by
  constructor
  · simp [midi_note_to_key, dropBelow84, liftAbove36]
  · simp [midi_note_to_key, dropBelow84, liftAbove36]

/-- C3: each message's delta-ticks are converted to seconds with the tempo in
force before that message (a `set_tempo` carried by the message itself is not
applied to its own delta), and the start times of all notes opened by a
prefix of the stream are unchanged by whatever follows — so a tempo change
between two notes can shift only the second note's timing. -/
theorem tempo_changes_not_retroactive (tpb : ℕ) (msgs : List Msg) (m : Msg)
    (suf : List Msg) :
    (processMsgs tpb (msgs ++ [m])).time
        = (processMsgs tpb msgs).time
          + tick2second m.delta tpb (processMsgs tpb msgs).tempo
    ∧ ∃ r, (processMsgs tpb (msgs ++ suf)).notes.map Note.time
        = (processMsgs tpb msgs).notes.map Note.time ++ r := by
  constructor
  · unfold processMsgs
    rw [List.foldl_append]
    simp only [List.foldl_cons, List.foldl_nil]
    exact processMsg_time ..
  · unfold processMsgs
    rw [List.foldl_append]
    exact foldl_notes_map_time tpb suf _

/-- C6: on both 15-key diatonic layouts, for every in-range pitch with a
sharp pitch class, `skip` resolves to none and `snap` resolves to the same
key as the natural pitch one semitone below. -/
theorem diatonic_sharp_policy :
    ∀ n, n < 85 → 60 ≤ n → isSharpOffset (n % 12) = true →
      (midi_note_to_key_15_double n false "skip" = none
        ∧ midi_note_to_key_15_double n false "snap"
            = midi_note_to_key_15_double (n - 1) false "snap")
      ∧ (midi_note_to_key_15_triple n false "skip" = none
        ∧ midi_note_to_key_15_triple n false "snap"
            = midi_note_to_key_15_triple (n - 1) false "snap") := by
  decide

/-- Witness for C6 at the sharp pitch 61 (C#4). -/
theorem diatonic_sharp_policy_witness :
    (midi_note_to_key_15_double 61 false "skip" = none
      ∧ midi_note_to_key_15_double 61 false "snap"
          = midi_note_to_key_15_double 60 false "snap")
    ∧ (midi_note_to_key_15_triple 61 false "skip" = none
      ∧ midi_note_to_key_15_triple 61 false "snap"
          = midi_note_to_key_15_triple 60 false "snap") :=
  diatonic_sharp_policy 61 (by decide) (by decide) (by decide)

/-- C8: for every MIDI input, the extracted note list is sorted
non-decreasing by start time, every duration is non-negative, and the final
sort leaves the extraction order untouched (the loop already emits note
starts in chronological order), so ties stand in extraction order. -/
theorem extract_sorted_and_nonneg (mid : MidiFileModel) :
    (parse_midi_notes mid).Pairwise (fun a b => a.time ≤ b.time)
    ∧ (∀ nt ∈ parse_midi_notes mid, 0 ≤ nt.duration)
    ∧ parse_midi_notes mid
        = (processMsgs mid.ticks_per_beat (mergeTracks mid.tracks)).notes := by
  obtain ⟨h1, h2, h3, h4⟩ := parseInv_processMsgs mid.ticks_per_beat (mergeTracks mid.tracks)
  have hpw : ((processMsgs mid.ticks_per_beat (mergeTracks mid.tracks)).notes).Pairwise
      (fun a b => noteTimeLe a b = true) := by
    have hp := (List.pairwise_map).mp h1
    exact hp.imp fun h => by simpa [noteTimeLe] using h
  have heq : parse_midi_notes mid
      = (processMsgs mid.ticks_per_beat (mergeTracks mid.tracks)).notes :=
    pySort_of_pairwise hpw
  refine ⟨?_, ?_, heq⟩
  · rw [heq]
    exact hpw.imp fun h => by simpa [noteTimeLe] using h
  · rw [heq]
    exact h3

/-- C7: `parse_midi` fails with the file-not-found error when the source does
not exist, with the oversize error (a value distinct from the
malformed-container error, and from the not-found error, whatever the
interpolated texts) when the source exceeds 10 MB, and with the
malformed-container error when mido rejects the byte stream; `Player.load`
propagates whichever error occurred unchanged. -/
theorem extraction_failure_taxonomy (src : MidiSource) (p : PlayerM) :
    (src.present = false →
      parse_midi src
        = .error ⟨.fileNotFoundError, "MIDI file not found: " ++ src.path⟩)
    ∧ (src.present = true → MAX_MIDI_SIZE < src.size →
      parse_midi src
        = .error ⟨.valueError, "MIDI file too large: " ++ sizeText src.size⟩)
    ∧ (src.present = true → src.size ≤ MAX_MIDI_SIZE → ∀ e, src.content = .error e →
      parse_midi src = .error ⟨.valueError, "Invalid MIDI file: " ++ e⟩)
    ∧ (∀ a b : String, (⟨.valueError, "MIDI file too large: " ++ a⟩ : PyError)
        ≠ ⟨.valueError, "Invalid MIDI file: " ++ b⟩)
    ∧ (∀ a b : String, (⟨.fileNotFoundError, a⟩ : PyError) ≠ ⟨.valueError, b⟩)
    ∧ (∀ e, parse_midi src = .error e → (load p src).2 = some e) := by
  refine ⟨?_, ?_, ?_, ?_, ?_, ?_⟩
  · intro h
    simp [parse_midi, h]
  · intro h1 h2
    simp [parse_midi, h1, h2]
  · intro h1 h2 e he
    simp [parse_midi, h1, Nat.not_lt.mpr h2, he]
  · intro a b h
    have := congrArg PyError.msg h
    exact size_msg_ne_invalid_msg a b this
  · intro a b h
    have := congrArg PyError.cls h
    simp at this
  · intro e he
    simp [load, he]

/-- Witness for C7 on three concrete sources (missing, oversize, malformed),
plus error propagation through `load`. -/
theorem extraction_failure_taxonomy_witness :
    parse_midi srcMissing
      = .error ⟨.fileNotFoundError, "MIDI file not found: " ++ srcMissing.path⟩
    ∧ parse_midi srcOversize
      = .error ⟨.valueError, "MIDI file too large: " ++ sizeText srcOversize.size⟩
    ∧ parse_midi srcMalformed
      = .error ⟨.valueError,
          "Invalid MIDI file: " ++ "MThd not found. Probably not a MIDI file"⟩
    ∧ (load playerDefault srcMissing).2
      = some ⟨.fileNotFoundError, "MIDI file not found: " ++ srcMissing.path⟩ := by
  have h1 := (extraction_failure_taxonomy srcMissing playerDefault).1 rfl
  refine ⟨h1, ?_, ?_, ?_⟩
  · exact (extraction_failure_taxonomy srcOversize playerDefault).2.1 rfl (by decide)
  · exact (extraction_failure_taxonomy srcMalformed playerDefault).2.2.1 rfl
      (by decide) _ rfl
  · exact (extraction_failure_taxonomy srcMissing playerDefault).2.2.2.2.2 _ h1

/-- C9 counterexample: on `srcLateTempo` the single `set_tempo` (240 BPM)
sits at tick 480, so the tempo in effect at position 0 is the default 120
BPM, yet `get_midi_info` reports 240 — the reported bpm is the first
`set_tempo` found scanning tracks, not the tempo at position 0. -/
theorem midi_info_bpm_counterexample :
    get_midi_info srcLateTempo = .ok ⟨3 / 4, 240, 1⟩
    ∧ spec_tempo_at_zero 500000 (mergeTracks midLateTempo.tracks) = 500000
    ∧ pyRound (tempo2bpm 500000) = 120
    ∧ (240 : ℤ) ≠ 120 := by
  refine ⟨?_, ?_, ?_, by decide⟩
  · norm_num [get_midi_info, parse_midi, srcLateTempo, midLateTempo, MAX_MIDI_SIZE,
      parse_midi_notes, processMsgs, processMsg, processOff, mergeTracks, toAbstime,
      toReltime, pySort, insAfter, parseInit, tick2second, noteTimeLe, dfltNote,
      get_tempo, get_tempo_track, pyRound, tempo2bpm]
  · norm_num [mergeTracks, midLateTempo, toAbstime, toReltime, pySort, insAfter,
      spec_tempo_at_zero]
  · norm_num [pyRound, tempo2bpm]

/-- C9 as amended: for every parseable source, `get_midi_info` returns the
duration of the last extracted note (`start + duration`, 0 for an empty
file), the note count, and a bpm derived from the *first `set_tempo` message
found scanning the tracks in order* (not the tempo at position 0), rounded,
with 120 as the fallback. -/
theorem midi_info_amended (src : MidiSource) (mid : MidiFileModel)
    (notes : List Note) (hc : src.content = .ok mid)
    (hp : parse_midi src = .ok notes) :
    get_midi_info src = .ok
      ⟨(match notes.getLast? with | none => 0 | some n => n.time + n.duration),
       (let t := get_tempo mid.tracks
        if t = 0 then 120 else pyRound (tempo2bpm t)),
       notes.length⟩
    ∧ get_tempo mid.tracks
        = ((mid.tracks.flatten.filterMap fun m =>
            match m.kind with | .setTempo v => some v | _ => none).headD 500000) := by
  refine ⟨?_, get_tempo_eq_flat mid.tracks⟩
  simp only [get_midi_info, hp, hc]

/-- Witness for C9 (amended) on the one-note file `srcSingle`. -/
theorem midi_info_amended_witness :
    get_midi_info srcSingle = .ok
      ⟨(match ([⟨60, 0, 1 / 2⟩] : List Note).getLast? with
        | none => 0
        | some n => n.time + n.duration),
       (let t := get_tempo midSingle.tracks
        if t = 0 then 120 else pyRound (tempo2bpm t)),
       ([⟨60, 0, 1 / 2⟩] : List Note).length⟩
    ∧ get_tempo midSingle.tracks
        = ((midSingle.tracks.flatten.filterMap fun m =>
            match m.kind with | .setTempo v => some v | _ => none).headD 500000) :=
  midi_info_amended srcSingle midSingle [⟨60, 0, 1 / 2⟩] rfl (by
    norm_num [parse_midi, srcSingle, MAX_MIDI_SIZE, parse_midi_notes, processMsgs,
      processMsg, processOff, mergeTracks, toAbstime, toReltime, pySort, insAfter,
      parseInit, tick2second, noteTimeLe, dfltNote, midSingle])

/-! ## Lemmas about the event cache -/

theorem not_uses_cache_of_none (q : PlayerM) (h : q.cached_events = none) :
    ¬ uses_cache q := by
  intro hu
  have h1 := hu.1
  rw [h] at h1
  simp at h1

theorem build_events_of_none (rk : Resolver) (p : PlayerM)
    (h : p.cached_events = none) :
    build_events rk p
      = (build_events_raw (rk p.game_mode p.key_layout p.transpose p.sharp_handling)
           p.notes,
         { p with
            cached_events := some (build_events_raw
              (rk p.game_mode p.key_layout p.transpose p.sharp_handling) p.notes),
            cached_cache_key := some (get_cache_key p) }) := by
  simp [build_events, h]

theorem build_events_hit (rk : Resolver) (p : PlayerM) (evs : List KeyEvent)
    (h1 : p.cached_events = some evs)
    (h2 : p.cached_cache_key = some (get_cache_key p)) :
    build_events rk p = (evs, p) := by
  simp [build_events, h1, h2]

theorem build_events_stale (rk : Resolver) (p : PlayerM) (evs : List KeyEvent)
    (h1 : p.cached_events = some evs)
    (h2 : p.cached_cache_key ≠ some (get_cache_key p)) :
    build_events rk p
      = (build_events_raw (rk p.game_mode p.key_layout p.transpose p.sharp_handling)
           p.notes,
         { p with
            cached_events := some (build_events_raw
              (rk p.game_mode p.key_layout p.transpose p.sharp_handling) p.notes),
            cached_cache_key := some (get_cache_key p) }) := by
  simp [build_events, h1, h2]

/-- Whatever branch `_build_events` takes, the resulting player stores the
returned list in the cache under the current cache key. -/
theorem build_events_snd (rk : Resolver) (p : PlayerM) :
    (build_events rk p).2
      = { p with cached_events := some (build_events rk p).1,
                 cached_cache_key := some (get_cache_key p) } := by
  rcases hce : p.cached_events with _ | evs
  · rw [build_events_of_none rk p hce]
  · by_cases hck : p.cached_cache_key = some (get_cache_key p)
    · rw [build_events_hit rk p evs hce hck]
      show p = _
      rw [← hce, ← hck]
    · rw [build_events_stale rk p evs hce hck]

theorem get_cache_key_length (q : PlayerM) :
    (get_cache_key q).length
      = (match q.current_song with | some s => s | none => "none").length
        + q.game_mode.pyName.length + q.key_layout.pyName.length
        + (pyStr q.transpose).length + q.sharp_handling.length + 4 := by
  have hbar : ("|" : String).length = 1 := rfl
  simp only [get_cache_key, String.length_append, hbar]
  ring

/-- Changing the game mode changes the cache key: the two mode names have
different lengths (9 and 16), while every other component is unchanged. -/
theorem cache_key_ne_of_mode_ne (q : PlayerM) (vm : GameMode)
    (hm : vm ≠ q.game_mode) :
    get_cache_key { q with game_mode := vm } ≠ get_cache_key q := by
  intro h
  have hlen := congrArg String.length h
  rw [get_cache_key_length, get_cache_key_length] at hlen
  dsimp only at hlen
  have hml : (GameMode.pyName vm).length = (GameMode.pyName q.game_mode).length := by
    omega
  have h9 : (GameMode.pyName .HEARTOPIA).length = 9 := rfl
  have h16 : (GameMode.pyName .WHERE_WINDS_MEET).length = 16 := rfl
  rcases hq : q.game_mode <;> rcases hv : vm <;> rw [hq, hv] at hml hm
  · exact hm rfl
  · rw [h9, h16] at hml
    omega
  · rw [h9, h16] at hml
    omega
  · exact hm rfl

/-- C5: after a first build, a second build under unchanged settings takes
the cache branch and returns the stored object with the state untouched;
changing the transpose flag, key layout, sharp policy or game mode, or
loading a different song, falsifies the cache-branch condition (so the next
build constructs a fresh list); changing only the speed neither falsifies it
nor changes the returned events. -/
theorem event_cache_roundtrip (rk : Resolver) (p : PlayerM) (vt : Bool)
    (vl : KeyLayout) (vs : String) (vm : GameMode) (src : MidiSource) (q : ℚ)
    (ht : vt ≠ p.transpose) (hl : vl ≠ p.key_layout)
    (hs : vs = "skip" ∨ vs = "snap") (hs2 : vs ≠ p.sharp_handling)
    (hm : vm ≠ p.game_mode) (hsrc : p.current_song ≠ some src.path) :
    build_events rk (build_events rk p).2
        = ((build_events rk p).1, (build_events rk p).2)
    ∧ uses_cache (build_events rk p).2
    ∧ ¬ uses_cache (set_transpose (build_events rk p).2 vt)
    ∧ ¬ uses_cache (set_key_layout (build_events rk p).2 vl)
    ∧ ¬ uses_cache (set_sharp_handling (build_events rk p).2 vs)
    ∧ ¬ uses_cache (set_game_mode (build_events rk p).2 vm)
    ∧ ¬ uses_cache (load (build_events rk p).2 src).1
    ∧ uses_cache (set_speed (build_events rk p).2 q)
    ∧ build_events rk (set_speed (build_events rk p).2 q)
        = ((build_events rk p).1, set_speed (build_events rk p).2 q) := by
  have hpost := build_events_snd rk p
  refine ⟨?_, ?_, ?_, ?_, ?_, ?_, ?_, ?_, ?_⟩
  · exact build_events_hit rk _ _ (by rw [hpost]; try rfl) (by rw [hpost]; try rfl)
  · exact ⟨by rw [hpost]; try rfl, by rw [hpost]; try rfl⟩
  · refine not_uses_cache_of_none _ ?_
    show (set_transpose (build_events rk p).2 vt).cached_events = none
    rw [hpost]
    simp only [set_transpose]
    rw [if_pos (show ({ p with
        cached_events := some (build_events rk p).1,
        cached_cache_key := some (get_cache_key p) } : PlayerM).transpose ≠ vt
      from Ne.symm ht)]
    rfl
  · refine not_uses_cache_of_none _ ?_
    show (set_key_layout (build_events rk p).2 vl).cached_events = none
    rw [hpost]
    simp only [set_key_layout]
    rw [if_pos (show ({ p with
        cached_events := some (build_events rk p).1,
        cached_cache_key := some (get_cache_key p) } : PlayerM).key_layout ≠ vl
      from Ne.symm hl)]
    rfl
  · refine not_uses_cache_of_none _ ?_
    show (set_sharp_handling (build_events rk p).2 vs).cached_events = none
    rw [hpost]
    simp only [set_sharp_handling]
    rw [if_pos hs]
    rw [if_pos (show ({ p with
        cached_events := some (build_events rk p).1,
        cached_cache_key := some (get_cache_key p) } : PlayerM).sharp_handling ≠ vs
      from Ne.symm hs2)]
    rfl
  · intro hu
    have h2 := hu.2
    rw [hpost] at h2
    have h2' : get_cache_key ({ p with game_mode := vm } : PlayerM)
        = get_cache_key p := by
      have := Option.some.inj h2
      exact this.symm
    exact cache_key_ne_of_mode_ne p vm hm h2'
  · refine not_uses_cache_of_none _ ?_
    show (load (build_events rk p).2 src).1.cached_events = none
    rw [hpost]
    simp only [load]
    rw [if_pos (show ({ p with
        cached_events := some (build_events rk p).1,
        cached_cache_key := some (get_cache_key p) } : PlayerM).current_song
        ≠ some src.path from hsrc)]
    rcases parse_midi src with e | ns <;> rfl
  · exact ⟨by rw [hpost]; try rfl, by rw [hpost]; try rfl⟩
  · exact build_events_hit rk _ _ (by rw [hpost]; try rfl) (by rw [hpost]; try rfl)

/-- Witness for C5: a fresh player, the trivial resolver, and a change of
each of the five inputs (transpose → true, layout → 15-double,
sharp policy → snap, mode → Where Winds Meet, song → `srcSingle`), plus a
speed change to 1.0. -/
theorem event_cache_roundtrip_witness :
    build_events rkNone (build_events rkNone playerDefault).2
        = ((build_events rkNone playerDefault).1, (build_events rkNone playerDefault).2)
    ∧ uses_cache (build_events rkNone playerDefault).2
    ∧ ¬ uses_cache (set_transpose (build_events rkNone playerDefault).2 true)
    ∧ ¬ uses_cache (set_key_layout (build_events rkNone playerDefault).2 .KEYS_15_DOUBLE)
    ∧ ¬ uses_cache (set_sharp_handling (build_events rkNone playerDefault).2 "snap")
    ∧ ¬ uses_cache (set_game_mode (build_events rkNone playerDefault).2 .WHERE_WINDS_MEET)
    ∧ ¬ uses_cache (load (build_events rkNone playerDefault).2 srcSingle).1
    ∧ uses_cache (set_speed (build_events rkNone playerDefault).2 1)
    ∧ build_events rkNone (set_speed (build_events rkNone playerDefault).2 1)
        = ((build_events rkNone playerDefault).1,
           set_speed (build_events rkNone playerDefault).2 1) :=
  event_cache_roundtrip rkNone playerDefault true .KEYS_15_DOUBLE "snap"
    .WHERE_WINDS_MEET srcSingle 1 (by decide) (by decide) (Or.inr rfl)
    (by decide) (by decide) (by decide)

theorem event_le_trans (a b c : KeyEvent) (hab : event_le a b = true)
    (hbc : event_le b c = true) : event_le a c = true := by
  simp only [event_le, decide_eq_true_eq] at *
  rcases hab with h | ⟨h1, h2⟩ <;> rcases hbc with g | ⟨g1, g2⟩
  · exact Or.inl (lt_trans h g)
  · exact Or.inl (lt_of_lt_of_eq h g1)
  · exact Or.inl (lt_of_eq_of_lt h1 g)
  · exact Or.inr ⟨h1.trans g1, le_trans h2 g2⟩

theorem event_le_total (a b : KeyEvent) :
    event_le a b = true ∨ event_le b a = true := by
  simp only [event_le, decide_eq_true_eq]
  rcases lt_trichotomy a.time b.time with h | h | h
  · exact Or.inl (Or.inl h)
  · rcases Nat.le_total (event_ord a) (event_ord b) with ho | ho
    · exact Or.inl (Or.inr ⟨h, ho⟩)
    · exact Or.inr (Or.inr ⟨h.symm, ho⟩)
  · exact Or.inr (Or.inl h)

/-- C4: the sorted event list is a permutation of the per-note contributions
(one DOWN at `startTime` and one UP at `startTime + duration` per resolvable
note, nothing for unresolvable notes), it is ordered by time with every UP
before every DOWN at equal times, and the spec's back-to-back-repeat example
produces exactly the UP-before-DOWN ordering at `time = 0.5`. -/
theorem build_events_wellformed (resolve : ℕ → Option HeldKey) (notes : List Note) :
    (build_events_raw resolve notes).Perm (notes.flatMap (events_of_note resolve))
    ∧ (build_events_raw resolve notes).Pairwise
        (fun a b => a.time ≤ b.time
          ∧ (a.time = b.time → ¬(a.action = "down" ∧ b.action = "up")))
    ∧ build_events_raw rkMiddleC [⟨60, 0, 1 / 2⟩, ⟨60, 1 / 2, 1 / 2⟩]
        = [⟨0, "down", "z", none⟩, ⟨1 / 2, "up", "z", none⟩,
           ⟨1 / 2, "down", "z", none⟩, ⟨1, "up", "z", none⟩] := by
  refine ⟨pySort_perm _ _, ?_, ?_⟩
  · have hp := pySort_pairwise event_le_trans event_le_total
      (notes.flatMap (events_of_note resolve))
    refine hp.imp ?_
    intro a b h
    simp only [event_le, decide_eq_true_eq] at h
    constructor
    · rcases h with h | ⟨h1, _⟩
      · exact le_of_lt h
      · exact le_of_eq h1
    · rintro heq ⟨ha, hb⟩
      rcases h with h | ⟨_, h2⟩
      · exact absurd heq (ne_of_lt h)
      · rw [event_ord, event_ord, ha, hb] at h2
        simp at h2
  · norm_num [build_events_raw, events_of_note, rkMiddleC, pySort, insAfter,
      event_le, event_ord, List.flatMap]

/-- C1: after `stop()` from any player state the held-key set is empty and
the state is `STOPPED`; `stop` is idempotent (and, being a total function of
the modelled state with every underlying release wrapped in
`try/except: pass`, it raises nothing); the constructor registers exactly
`_release_all_keys` as the atexit hook, and that hook attempts a release of
precisely the held keys and leaves the set empty, from any state. -/
theorem stop_clears_held_keys (p : PlayerM) :
    (stop p).held_keys = []
    ∧ (stop p).state = .STOPPED
    ∧ stop (stop p) = stop p
    ∧ player_new.2 = [release_all_keys]
    ∧ (release_all_keys p).1.held_keys = []
    ∧ (release_all_keys p).2 = p.held_keys :=
  ⟨rfl, rfl, rfl, rfl, rfl, rfl⟩

/-- C10: when the underlying press raises, `_key_down` swallows the failure:
the key is not added to the held-key set, `_last_error` records the failure
text — but `_last_key` was already set to the attempted key, so it now names
a key that was never pressed. -/
theorem key_down_failure_atomicity (p : PlayerM) (key : String)
    (modifier : Option Unit) (e : String) (h : (key, modifier) ∉ p.held_keys) :
    (key_down (some e) p key modifier).held_keys = p.held_keys
    ∧ (key_down (some e) p key modifier).last_error
        = "Key simulation failed: " ++ e
    ∧ (key_down (some e) p key modifier).last_key
        = (if modifier.isSome then "Shift+" ++ key.toUpper else key.toUpper) := by
  unfold key_down
  rw [if_neg h]
  exact ⟨rfl, rfl, rfl⟩

/-- Witness for C10: a failing press of `"z"` on a fresh player. -/
theorem key_down_failure_atomicity_witness :
    (key_down (some "boom") playerDefault "z" none).held_keys
        = playerDefault.held_keys
    ∧ (key_down (some "boom") playerDefault "z" none).last_error
        = "Key simulation failed: " ++ "boom"
    ∧ (key_down (some "boom") playerDefault "z" none).last_key
        = (if (none : Option Unit).isSome then "Shift+" ++ "z".toUpper
           else "z".toUpper) :=
  key_down_failure_atomicity playerDefault "z" none "boom" (by simp [playerDefault])

/-- Witness for C8 on the one-note file `midSingle`. -/
theorem extract_sorted_and_nonneg_witness :
    (⟨60, 0, 1 / 2⟩ : Note) ∈ parse_midi_notes midSingle
    ∧ (0 : ℚ) ≤ (⟨60, 0, 1 / 2⟩ : Note).duration := by
  have hmem : (⟨60, 0, 1 / 2⟩ : Note) ∈ parse_midi_notes midSingle := by
    norm_num [parse_midi_notes, processMsgs, processMsg, processOff, mergeTracks,
      toAbstime, toReltime, pySort, insAfter, parseInit, tick2second, noteTimeLe,
      dfltNote, midSingle]
  exact ⟨hmem, (extract_sorted_and_nonneg midSingle).2.1 _ hmem⟩

end Maestro
